import Mathlib

/-!
Verification of the Mellanox sonic-platform hardware-monitoring layer
(`chassis.rs`, `fan.rs`, `thermal.rs`) against its specification.

Modelling conventions:
* Rust strings (`&str` / `String`) are modelled as `List Char`; all the
  patterns involved are ASCII, so the byte/char distinction is immaterial.
* `u32` / `usize` values are modelled as `Nat`, with explicit `% 2^32`
  (resp. a `< 2^64` bound) exactly where the Rust machine arithmetic can
  wrap or reject.
* `f32` readings in `thermal.rs` are modelled as exact rationals (`ℚ`).
  The claims settled against this model only depend on comparisons at
  exactly representable points (e.g. the `-999.0` sentinel, where the
  `f32` subtraction is exact), or on determinism of the comparison, so
  the conclusions transfer to the `f32` code.
* The two float → integer conversions in `fan.rs`
  (`rpm_to_percentage`, `pwm_to_percentage`, `percentage_to_pwm`) are
  modelled as exact rational arithmetic followed by truncation, i.e.
  `Nat` floor division.  For the in-contract ranges (pwm bytes 0–255,
  percentages 0–100) the `f32` rounding error is far smaller than the
  distance from any attained exact value to the next integer, so the
  truncated results coincide.
* Fallible operations (`Result<T>`) are modelled as `Option T`; the
  sysfs filesystem is modelled as a function from filename to
  `Option Nat` (or `Option Int` for millidegree reads): `none` is a
  read error, `some v` a successful parse.
-/

/-! ## Decimal numerals

`natDigits n` is the standard decimal numeral for `n`, most significant
digit first, as produced by Rust's `format!("{}", n)` for unsigned
integers. -/

/-- Fuel-based helper for `natDigits` (structural recursion keeps the
definition kernel-computable); the fuel always dominates the argument. -/
def natDigitsAux : Nat → Nat → List Char
  | 0, _ => []
  | fuel + 1, n =>
    if n < 10 then [Char.ofNat (48 + n)]
    else natDigitsAux fuel (n / 10) ++ [Char.ofNat (48 + n % 10)]

/-- Decimal numeral of `n`, most significant digit first
(Rust `format!("{}", n)` for an unsigned integer). -/
def natDigits (n : Nat) : List Char := natDigitsAux (n + 1) n

lemma natDigitsAux_congr (n : Nat) :
    ∀ (fuel fuel2 : Nat), n < fuel → n < fuel2 →
      natDigitsAux fuel n = natDigitsAux fuel2 n := by
  induction n using Nat.strong_induction_on with
  | _ n ih =>
    intro fuel fuel2 h1 h2
    cases fuel with
    | zero => omega
    | succ f1 =>
      cases fuel2 with
      | zero => omega
      | succ f2 =>
        simp only [natDigitsAux]
        by_cases hn : n < 10
        · simp [hn]
        · simp only [hn, if_false]
          have hd : n / 10 < n := Nat.div_lt_self (by omega) (by norm_num)
          rw [ih (n / 10) hd f1 f2 (by omega) (by omega)]

/-- The intended recursive unfolding of `natDigits`. -/
lemma natDigits_eq (n : Nat) :
    natDigits n = if n < 10 then [Char.ofNat (48 + n)]
      else natDigits (n / 10) ++ [Char.ofNat (48 + n % 10)] := by
  show natDigitsAux (n + 1) n = _
  rw [show natDigitsAux (n + 1) n
      = if n < 10 then [Char.ofNat (48 + n)]
        else natDigitsAux n (n / 10) ++ [Char.ofNat (48 + n % 10)] from rfl]
  by_cases hn : n < 10
  · simp [hn]
  · simp only [hn, if_false]
    have hd : n / 10 < n := Nat.div_lt_self (by omega) (by norm_num)
    rw [natDigitsAux_congr (n / 10) n (n / 10 + 1) hd (by omega)]
    rfl

/-- Numeric value of a digit string, as accumulated by an integer
parser scanning left to right. -/
def digitsToNat (cs : List Char) : Nat :=
  cs.foldl (fun a c => a * 10 + (c.toNat - 48)) 0

/-- Rust `str::parse::<usize>()` on a 64-bit target: an optional
leading `'+'`, then one or more decimal digits, value below `2^64`;
anything else is an error. -/
def parseUsize (cs : List Char) : Option Nat :=
  let cs2 := if cs.head? = some '+' then cs.tail else cs
  if !cs2.isEmpty && cs2.all Char.isDigit then
    if digitsToNat cs2 < 2 ^ 64 then some (digitsToNat cs2) else none
  else none

lemma char_ofNat_digit (d : Nat) (hd : d < 10) :
    (Char.ofNat (48 + d)).toNat = 48 + d ∧ (Char.ofNat (48 + d)).isDigit = true := by
  interval_cases d <;> exact ⟨rfl, rfl⟩

lemma natDigits_ne_nil (n : Nat) : natDigits n ≠ [] := by
  rw [natDigits_eq]
  split
  · simp
  · simp

lemma natDigits_all_digit (n : Nat) : (natDigits n).all Char.isDigit = true := by
  induction n using Nat.strong_induction_on with
  | _ n ih =>
    rw [natDigits_eq]
    split
    · next h =>
      simpa using (char_ofNat_digit n h).2
    · next h =>
      have h10 : (10 : Nat) ≤ n := by omega
      have hdiv : n / 10 < n := Nat.div_lt_self (by omega) (by norm_num)
      have hmod : n % 10 < 10 := Nat.mod_lt _ (by norm_num)
      simp only [List.all_append, Bool.and_eq_true]
      exact ⟨ih _ hdiv, by simpa using (char_ofNat_digit _ hmod).2⟩

lemma digitsToNat_natDigits (n : Nat) : digitsToNat (natDigits n) = n := by
  induction n using Nat.strong_induction_on with
  | _ n ih =>
    rw [natDigits_eq]
    split
    · next h =>
      simp [digitsToNat, (char_ofNat_digit n h).1]
    · next h =>
      have hdiv : n / 10 < n := Nat.div_lt_self (by omega) (by norm_num)
      have hmod : n % 10 < 10 := Nat.mod_lt _ (by norm_num)
      have hih : List.foldl (fun a c => a * 10 + (c.toNat - 48)) 0 (natDigits (n / 10))
          = n / 10 := ih _ hdiv
      simp only [digitsToNat, List.foldl_append, List.foldl, hih,
        (char_ofNat_digit _ hmod).1]
      omega

lemma natDigits_head_digit (n : Nat) :
    ∀ c, (natDigits n).head? = some c → c.isDigit = true := by
  intro c hc
  have hall := natDigits_all_digit n
  cases hnd : natDigits n with
  | nil => rw [hnd] at hc; simp at hc
  | cons a l =>
    rw [hnd] at hc hall
    simp at hc hall
    exact hc ▸ hall.1

lemma parseUsize_natDigits (n : Nat) (hn : n < 2 ^ 64) :
    parseUsize (natDigits n) = some n := by
  have hhead : (natDigits n).head? ≠ some '+' := by
    intro hc
    have := natDigits_head_digit n '+' hc
    simp [Char.isDigit] at this
  have hne : (natDigits n).isEmpty = false := by
    cases hnd : natDigits n with
    | nil => exact absurd hnd (natDigits_ne_nil n)
    | cons a l => rfl
  simp [parseUsize, hhead, hne, natDigits_all_digit n, digitsToNat_natDigits n, hn]
  omega

/-! ## Channel scanning and device classification (chassis.rs)

The discovery loops in `chassis.rs` pattern-match directory entries:
`temp<N>_input` / `fan<N>_input` (prefix + `_input` suffix, decimal index
in between) and `pwm<N>` (prefix `pwm`, no `'_'` anywhere, decimal index).
-/

inductive ChannelKind : Type
  | temperature
  | fanSpeed
  | pwm
deriving DecidableEq, Repr

def tempPat : List Char := ['t', 'e', 'm', 'p']

def fanPat : List Char := ['f', 'a', 'n']

def pwmPat : List Char := ['p', 'w', 'm']

def inputSuffix : List Char := ['_', 'i', 'n', 'p', 'u', 't']

def mlxswPat : List Char := ['m', 'l', 'x', 's', 'w']

def coolingPat : List Char := ['c', 'o', 'o', 'l', 'i', 'n', 'g']

/-- Rust `str::strip_suffix` as used after an `ends_with` guard: drop the
suffix length from the end. -/
def stripSuffix (cs suf : List Char) : List Char := cs.take (cs.length - suf.length)

/-- `temp<N>_input` branch of the scan loops: condition
`starts_with("temp") && ends_with("_input")`, then
`strip_prefix("temp")`, `strip_suffix("_input")`, `parse::<usize>()`. -/
def tempInputExtract (f : List Char) : Option Nat :=
  if tempPat.isPrefixOf f && inputSuffix.isSuffixOf f then
    parseUsize (stripSuffix (f.drop tempPat.length) inputSuffix)
  else none

/-- `fan<N>_input` branch (used both by `discover_mlxsw_sensors` and
`discover_fans`). -/
def fanInputExtract (f : List Char) : Option Nat :=
  if fanPat.isPrefixOf f && inputSuffix.isSuffixOf f then
    parseUsize (stripSuffix (f.drop fanPat.length) inputSuffix)
  else none

/-- `pwm<N>` branch: condition `starts_with("pwm") && !contains('_')`,
then `strip_prefix("pwm")`, `parse::<usize>()`. -/
def pwmChanExtract (f : List Char) : Option Nat :=
  if pwmPat.isPrefixOf f && !(f.contains '_') then
    parseUsize (f.drop pwmPat.length)
  else none

/-- The body of the `discover_mlxsw_sensors` scan loop: the three branch
conditions tried in source order (`temp` first, then `fan`, then `pwm`),
yielding the channel kind and parsed index of one directory entry. -/
def parseChannel (f : List Char) : Option (ChannelKind × Nat) :=
  if tempPat.isPrefixOf f && inputSuffix.isSuffixOf f then
    (tempInputExtract f).map (fun i => (ChannelKind.temperature, i))
  else if fanPat.isPrefixOf f && inputSuffix.isSuffixOf f then
    (fanInputExtract f).map (fun i => (ChannelKind.fanSpeed, i))
  else if pwmPat.isPrefixOf f && !(f.contains '_') then
    (pwmChanExtract f).map (fun i => (ChannelKind.pwm, i))
  else none

/-- One step of the `discover_mlxsw_sensors` loop: push the parsed index
onto the vector for its kind, skip non-matching entries. -/
def scanStep (acc : List Nat × List Nat × List Nat) (f : List Char) :
    List Nat × List Nat × List Nat :=
  match parseChannel f with
  | some (ChannelKind.temperature, i) => (acc.1 ++ [i], acc.2.1, acc.2.2)
  | some (ChannelKind.fanSpeed, i) => (acc.1, acc.2.1 ++ [i], acc.2.2)
  | some (ChannelKind.pwm, i) => (acc.1, acc.2.1, acc.2.2 ++ [i])
  | none => acc

/-- The scan loop of `discover_mlxsw_sensors`: collect temperature, fan
and pwm channel indices from the directory entries. -/
def scanChannels (files : List (List Char)) : List Nat × List Nat × List Nat :=
  files.foldl scanStep ([], [], [])

/-- `Vec::sort_unstable` on channel indices (ascending). -/
def sortIdx (l : List Nat) : List Nat := List.insertionSort (· ≤ ·) l

/-- A constructed `MlnxThermal`: display name plus `temp<N>` channel
index (`thermal.rs` lines 96–113, sysfs path elided — all reads are
parametrised over the filesystem). -/
structure ThermalDev : Type where
  name : List Char
  tempIndex : Nat
deriving DecidableEq, Repr

/-- A constructed `MlnxFan`: display name, `fan<N>` channel index and
optional paired `pwm<N>` index (`fan.rs` lines 199–214). -/
structure FanDev : Type where
  name : List Char
  fanIndex : Nat
  pwmIndex : Option Nat
deriving DecidableEq, Repr

/-- `format!("Thermal {}", temp_idx)` -/
def thermalLabel (i : Nat) : List Char :=
  ['T', 'h', 'e', 'r', 'm', 'a', 'l', ' '] ++ natDigits i

/-- `format!("Fan {}", fan_idx)` -/
def fanLabel (i : Nat) : List Char :=
  ['F', 'a', 'n', ' '] ++ natDigits i

/-- `format!("{} Fan {}", name, fan_idx)` -/
def dirFanLabel (dir : List Char) (i : Nat) : List Char :=
  dir ++ [' ', 'F', 'a', 'n', ' '] ++ natDigits i

/-- `format!("{} Thermal {}", name, temp_idx)` -/
def dirThermalLabel (dir : List Char) (i : Nat) : List Char :=
  dir ++ [' ', 'T', 'h', 'e', 'r', 'm', 'a', 'l', ' '] ++ natDigits i

/-- The fan-construction loop of `discover_mlxsw_sensors`:
`for (i, fan_idx) in fan_indices.iter().enumerate()` with
`pwm_idx = pwm_indices.get(i)`. -/
def buildFans (pos : Nat) (fanIdxs pwmIdxs : List Nat) : List FanDev :=
  match fanIdxs with
  | [] => []
  | i :: rest => ⟨fanLabel i, i, pwmIdxs[pos]?⟩ :: buildFans (pos + 1) rest pwmIdxs

/-- `MlnxChassis::discover_mlxsw_sensors` (combined strategy): one
`Thermal` per temperature channel, one `Fan` per fan-speed channel,
pwm paired positionally after sorting each index list. -/
def discover_mlxsw_sensors (files : List (List Char)) :
    List ThermalDev × List FanDev :=
  match scanChannels files with
  | (t, f, p) =>
    ((sortIdx t).map (fun i => ⟨thermalLabel i, i⟩),
     buildFans 0 (sortIdx f) (sortIdx p))

/-- `MlnxChassis::discover_fans` (fan-only strategy): one `Fan` per
`fan<N>_input` entry, never pwm-paired. -/
def discover_fans (dirName : List Char) (files : List (List Char)) :
    List FanDev :=
  (sortIdx (files.filterMap fanInputExtract)).map
    (fun i => ⟨dirFanLabel dirName i, i, none⟩)

/-- `MlnxChassis::discover_generic_sensors` (generic strategy): one
`Thermal` per `temp<N>_input` entry. -/
def discover_generic_sensors (dirName : List Char) (files : List (List Char)) :
    List ThermalDev :=
  (sortIdx (files.filterMap tempInputExtract)).map
    (fun i => ⟨dirThermalLabel dirName i, i⟩)

/-- Rust `str::contains(pat)`: substring (contiguous infix) test. -/
def containsSub (hay pat : List Char) : Bool := decide (pat <:+: hay)

/-- `MlnxChassis::process_hwmon_device`: route one hardware-monitoring
directory to a discovery strategy by substring match on its `name`
attribute, in source priority order (`mlxsw`, then `fan`/`cooling`,
then generic). Returns the thermals and fans contributed by this
directory. -/
def process_hwmon_device (dirName : List Char) (files : List (List Char)) :
    List ThermalDev × List FanDev :=
  if containsSub dirName mlxswPat then
    discover_mlxsw_sensors files
  else if containsSub dirName fanPat || containsSub dirName coolingPat then
    ([], discover_fans dirName files)
  else
    (discover_generic_sensors dirName files, [])

/-! ## Pattern-matching lemmas -/

lemma isPrefixOf_append (p r : List Char) : p.isPrefixOf (p ++ r) = true := by
  induction p with
  | nil => simp [List.isPrefixOf]
  | cons a as ih => simp [List.isPrefixOf, ih]

lemma isSuffixOf_append (s p : List Char) : s.isSuffixOf (p ++ s) = true := by
  simp [List.isSuffixOf, List.reverse_append, isPrefixOf_append]

lemma stripSuffix_append (a s : List Char) : stripSuffix (a ++ s) s = a := by
  simp only [stripSuffix, List.length_append, Nat.add_sub_cancel]
  exact List.take_left' rfl

lemma head_of_isPrefixOf {a : Char} {as f : List Char}
    (h : (a :: as).isPrefixOf f = true) : ∃ t, f = a :: t := by
  cases f with
  | nil => simp [List.isPrefixOf] at h
  | cons b bs =>
    simp only [List.isPrefixOf, Bool.and_eq_true, beq_iff_eq] at h
    exact ⟨bs, by rw [h.1]⟩

lemma underscore_not_mem_natDigits (n : Nat) : ¬ ('_' ∈ natDigits n) := by
  intro hmem
  have hall := natDigits_all_digit n
  rw [List.all_eq_true] at hall
  have := hall _ hmem
  simp [Char.isDigit] at this

/-- Rust `format!` channel filenames: `temp{i}_input`, `fan{i}_input`
(as in `thermal.rs` / `fan.rs` attribute reads and the scan patterns)
and `pwm{i}`. -/
def mkChannelFile : ChannelKind → Nat → List Char
  | ChannelKind.temperature, i => tempPat ++ (natDigits i ++ inputSuffix)
  | ChannelKind.fanSpeed, i => fanPat ++ (natDigits i ++ inputSuffix)
  | ChannelKind.pwm, i => pwmPat ++ natDigits i

/-- C9: for every well-formed channel filename, the scanner extracts the
(kind, index) pair, and rebuilding the filename from that pair and
re-parsing yields the same pair. -/
theorem c9_channel_roundtrip (k : ChannelKind) (i : Nat) (hi : i < 2 ^ 64) :
    parseChannel (mkChannelFile k i) = some (k, i) := by
  cases k with
  | temperature =>
    have h1 : tempPat.isPrefixOf (tempPat ++ (natDigits i ++ inputSuffix)) = true :=
      isPrefixOf_append _ _
    have h2 : inputSuffix.isSuffixOf (tempPat ++ (natDigits i ++ inputSuffix)) = true := by
      rw [← List.append_assoc]; exact isSuffixOf_append _ _
    simp only [mkChannelFile, parseChannel, tempInputExtract, h1, h2,
      Bool.and_self, if_true, List.drop_left, stripSuffix_append,
      parseUsize_natDigits i hi, Option.map_some']
  | fanSpeed =>
    have h0 : tempPat.isPrefixOf (fanPat ++ (natDigits i ++ inputSuffix)) = false := by
      simp [tempPat, fanPat, List.isPrefixOf]
    have h1 : fanPat.isPrefixOf (fanPat ++ (natDigits i ++ inputSuffix)) = true :=
      isPrefixOf_append _ _
    have h2 : inputSuffix.isSuffixOf (fanPat ++ (natDigits i ++ inputSuffix)) = true := by
      rw [← List.append_assoc]; exact isSuffixOf_append _ _
    simp only [mkChannelFile, parseChannel, fanInputExtract, h0, h1, h2,
      Bool.false_and, Bool.and_self, if_true, Bool.false_eq_true, if_false,
      List.drop_left, stripSuffix_append, parseUsize_natDigits i hi,
      Option.map_some']
  | pwm =>
    have h0 : tempPat.isPrefixOf (pwmPat ++ natDigits i) = false := by
      simp [tempPat, pwmPat, List.isPrefixOf]
    have h1 : fanPat.isPrefixOf (pwmPat ++ natDigits i) = false := by
      simp [fanPat, pwmPat, List.isPrefixOf]
    have h2 : pwmPat.isPrefixOf (pwmPat ++ natDigits i) = true :=
      isPrefixOf_append _ _
    have h3 : (pwmPat ++ natDigits i).contains '_' = false := by
      have : ¬ ('_' ∈ pwmPat ++ natDigits i) := by
        intro hmem
        rcases List.mem_append.mp hmem with hm | hm
        · simp [pwmPat] at hm
        · exact underscore_not_mem_natDigits i hm
      simpa [List.contains] using this
    simp only [mkChannelFile, parseChannel, pwmChanExtract, h0, h1, h2, h3,
      Bool.false_and, Bool.not_false, Bool.and_self, if_true,
      Bool.false_eq_true, if_false, List.drop_left,
      parseUsize_natDigits i hi, Option.map_some']

/-- Witness for C9 at a concrete channel. -/
theorem c9_channel_roundtrip_witness :
    parseChannel (mkChannelFile ChannelKind.fanSpeed 12) =
      some (ChannelKind.fanSpeed, 12) :=
  c9_channel_roundtrip ChannelKind.fanSpeed 12 (by norm_num)

/-! ## Discovery lemmas (towards C1) -/

/-- Projection of the scan-loop body for temperature entries. -/
def tempProj (f : List Char) : Option Nat :=
  match parseChannel f with
  | some (ChannelKind.temperature, i) => some i
  | _ => none

def fanProj (f : List Char) : Option Nat :=
  match parseChannel f with
  | some (ChannelKind.fanSpeed, i) => some i
  | _ => none

def pwmProj (f : List Char) : Option Nat :=
  match parseChannel f with
  | some (ChannelKind.pwm, i) => some i
  | _ => none

lemma scanChannels_aux (files : List (List Char)) :
    ∀ acc : List Nat × List Nat × List Nat,
      files.foldl scanStep acc =
        (acc.1 ++ files.filterMap tempProj,
         acc.2.1 ++ files.filterMap fanProj,
         acc.2.2 ++ files.filterMap pwmProj) := by
  induction files with
  | nil => intro acc; simp [tempProj, fanProj, pwmProj]
  | cons f fs ih =>
    intro acc
    simp only [List.foldl_cons, ih, List.filterMap_cons]
    unfold scanStep tempProj fanProj pwmProj
    cases hpc : parseChannel f with
    | none => simp [hpc]
    | some ki =>
      obtain ⟨k, i⟩ := ki
      cases k <;> simp [hpc]

lemma scanChannels_eq (files : List (List Char)) :
    scanChannels files =
      (files.filterMap tempProj, files.filterMap fanProj, files.filterMap pwmProj) := by
  simpa using scanChannels_aux files ([], [], [])

lemma fan_isPrefixOf_false_of_temp {f : List Char}
    (h : tempPat.isPrefixOf f = true) : fanPat.isPrefixOf f = false := by
  obtain ⟨t, rfl⟩ := head_of_isPrefixOf (a := 't') h
  simp [fanPat, List.isPrefixOf]

lemma pwm_isPrefixOf_false_of_temp {f : List Char}
    (h : tempPat.isPrefixOf f = true) : pwmPat.isPrefixOf f = false := by
  obtain ⟨t, rfl⟩ := head_of_isPrefixOf (a := 't') h
  simp [pwmPat, List.isPrefixOf]


lemma contains_underscore_of_inputSuffix {f : List Char}
    (h : inputSuffix.isSuffixOf f = true) : f.contains '_' = true := by
  have hs : inputSuffix <:+ f := by
    have := List.isSuffixOf_iff_suffix.mp h
    exact this
  have hm : '_' ∈ f := hs.subset (by simp [inputSuffix])
  simpa [List.contains] using hm

lemma tempProj_eq (f : List Char) : tempProj f = tempInputExtract f := by
  unfold tempProj parseChannel tempInputExtract
  by_cases h1 : (tempPat.isPrefixOf f && inputSuffix.isSuffixOf f) = true
  · rw [if_pos h1, if_pos h1]
    cases parseUsize (stripSuffix (f.drop tempPat.length) inputSuffix) <;> rfl
  · rw [if_neg h1, if_neg h1]
    by_cases h2 : (fanPat.isPrefixOf f && inputSuffix.isSuffixOf f) = true
    · rw [if_pos h2]
      cases fanInputExtract f <;> rfl
    · rw [if_neg h2]
      by_cases h3 : (pwmPat.isPrefixOf f && !(f.contains '_')) = true
      · rw [if_pos h3]
        cases pwmChanExtract f <;> rfl
      · rw [if_neg h3]

lemma fanProj_eq (f : List Char) : fanProj f = fanInputExtract f := by
  unfold fanProj parseChannel fanInputExtract
  by_cases h1 : (tempPat.isPrefixOf f && inputSuffix.isSuffixOf f) = true
  · have htp : tempPat.isPrefixOf f = true := by
      have h1b := h1
      simp only [Bool.and_eq_true] at h1b
      exact h1b.1
    have hc2 : ¬ (fanPat.isPrefixOf f && inputSuffix.isSuffixOf f) = true := by
      simp [fan_isPrefixOf_false_of_temp htp]
    rw [if_pos h1, if_neg hc2]
    cases tempInputExtract f <;> rfl
  · rw [if_neg h1]
    by_cases h2 : (fanPat.isPrefixOf f && inputSuffix.isSuffixOf f) = true
    · rw [if_pos h2, if_pos h2]
      cases parseUsize (stripSuffix (f.drop fanPat.length) inputSuffix) <;> rfl
    · rw [if_neg h2, if_neg h2]
      by_cases h3 : (pwmPat.isPrefixOf f && !(f.contains '_')) = true
      · rw [if_pos h3]
        cases pwmChanExtract f <;> rfl
      · rw [if_neg h3]

lemma pwmProj_eq (f : List Char) : pwmProj f = pwmChanExtract f := by
  unfold pwmProj parseChannel
  by_cases h1 : (tempPat.isPrefixOf f && inputSuffix.isSuffixOf f) = true
  · have hu : f.contains '_' = true := by
      have h1b := h1
      simp only [Bool.and_eq_true] at h1b
      exact contains_underscore_of_inputSuffix h1b.2
    have hm : '_' ∈ f := by simpa [List.contains] using hu
    have hp : pwmChanExtract f = none := by
      simp [pwmChanExtract, hm]
    rw [if_pos h1, hp]
    cases tempInputExtract f <;> rfl
  · rw [if_neg h1]
    by_cases h2 : (fanPat.isPrefixOf f && inputSuffix.isSuffixOf f) = true
    · have hu : f.contains '_' = true := by
        have h2b := h2
        simp only [Bool.and_eq_true] at h2b
        exact contains_underscore_of_inputSuffix h2b.2
      have hm : '_' ∈ f := by simpa [List.contains] using hu
      have hp : pwmChanExtract f = none := by
        simp [pwmChanExtract, hm]
      rw [if_pos h2, hp]
      cases fanInputExtract f <;> rfl
    · rw [if_neg h2]
      by_cases h3 : (pwmPat.isPrefixOf f && !(f.contains '_')) = true
      · rw [if_pos h3]
        cases pwmChanExtract f <;> rfl
      · rw [if_neg h3]
        unfold pwmChanExtract
        rw [if_neg h3]

/-- Sorted temperature channel indices of a directory, as consumed by the
thermal-construction loop of `discover_mlxsw_sensors`. -/
def tempChannelIndices (files : List (List Char)) : List Nat :=
  sortIdx (scanChannels files).1

/-- Sorted fan-speed channel indices of a directory. -/
def fanChannelIndices (files : List (List Char)) : List Nat :=
  sortIdx (scanChannels files).2.1

/-- Sorted pwm channel indices of a directory. -/
def pwmChannelIndices (files : List (List Char)) : List Nat :=
  sortIdx (scanChannels files).2.2

lemma discover_mlxsw_eq (files : List (List Char)) :
    discover_mlxsw_sensors files =
      ((tempChannelIndices files).map (fun i => ⟨thermalLabel i, i⟩),
       buildFans 0 (fanChannelIndices files) (pwmChannelIndices files)) := by
  unfold discover_mlxsw_sensors tempChannelIndices fanChannelIndices pwmChannelIndices
  rcases hsc : scanChannels files with ⟨t, fp⟩
  simp

lemma buildFans_length (fs : List Nat) :
    ∀ (pos : Nat) (ps : List Nat), (buildFans pos fs ps).length = fs.length := by
  induction fs with
  | nil => intro pos ps; rfl
  | cons i rest ih => intro pos ps; simp [buildFans, ih]

lemma buildFans_get (fs : List Nat) :
    ∀ (pos j : Nat) (ps : List Nat) (hj : j < fs.length)
      (hj2 : j < (buildFans pos fs ps).length),
      (buildFans pos fs ps).get ⟨j, hj2⟩ =
        ⟨fanLabel (fs.get ⟨j, hj⟩), fs.get ⟨j, hj⟩, ps[pos + j]?⟩ := by
  induction fs with
  | nil => intro pos j ps hj hj2; exact absurd hj (by simp)
  | cons i rest ih =>
    intro pos j ps hj hj2
    cases j with
    | zero => simp [buildFans]
    | succ j2 =>
      have hj3 : j2 < rest.length := by simpa using hj
      have hj4 : j2 < (buildFans (pos + 1) rest ps).length := by
        rw [buildFans_length]; exact hj3
      have := ih (pos + 1) j2 ps hj3 hj4
      simp only [buildFans, List.get_cons_succ, this]
      rw [show pos + 1 + j2 = pos + (j2 + 1) by omega]

lemma buildFans_map_fanIndex (fs : List Nat) :
    ∀ (pos : Nat) (ps : List Nat),
      (buildFans pos fs ps).map FanDev.fanIndex = fs := by
  induction fs with
  | nil => intro pos ps; rfl
  | cons i rest ih => intro pos ps; simp [buildFans, ih]

lemma length_filterMap_isSome (g : List Char → Option Nat) (l : List (List Char)) :
    (l.filterMap g).length = (l.filter (fun f => (g f).isSome)).length := by
  induction l with
  | nil => rfl
  | cons a t ih =>
    cases hg : g a <;> simp [List.filterMap_cons, List.filter_cons, hg, ih]

lemma sortIdx_length (l : List Nat) : (sortIdx l).length = l.length :=
  (List.perm_insertionSort _ l).length_eq

lemma sortIdx_sorted (l : List Nat) : (sortIdx l).Sorted (· ≤ ·) :=
  List.sorted_insertionSort _ l

lemma sortIdx_perm (l : List Nat) : (sortIdx l).Perm l :=
  List.perm_insertionSort _ l

lemma tempChannelIndices_length (files : List (List Char)) :
    (tempChannelIndices files).length
      = (files.filter (fun f => (tempInputExtract f).isSome)).length := by
  unfold tempChannelIndices
  rw [sortIdx_length, scanChannels_eq]
  simp only
  rw [length_filterMap_isSome]
  congr 1
  apply List.filter_congr
  intro a _
  rw [tempProj_eq]

lemma fanChannelIndices_length (files : List (List Char)) :
    (fanChannelIndices files).length
      = (files.filter (fun f => (fanInputExtract f).isSome)).length := by
  unfold fanChannelIndices
  rw [sortIdx_length, scanChannels_eq]
  simp only
  rw [length_filterMap_isSome]
  congr 1
  apply List.filter_congr
  intro a _
  rw [fanProj_eq]

/-- C1: for a hardware-monitoring directory whose name contains the ASIC
marker "mlxsw", classification takes the combined strategy and builds
exactly one Thermal per `temp<N>_input` channel (named "Thermal N"), one
Fan per `fan<N>_input` channel, pairing the i-th fan-speed channel (in
ascending sorted index order) with the i-th pwm channel (in ascending
sorted index order) when one exists at that position, and no pwm
otherwise. -/
theorem c1_mlxsw_classification (dirName : List Char) (files : List (List Char))
    (h : containsSub dirName mlxswPat = true) :
    process_hwmon_device dirName files = discover_mlxsw_sensors files ∧
    (process_hwmon_device dirName files).1.length
      = (files.filter (fun f => (tempInputExtract f).isSome)).length ∧
    (∀ th ∈ (process_hwmon_device dirName files).1,
      th.name = thermalLabel th.tempIndex) ∧
    (process_hwmon_device dirName files).1.map ThermalDev.tempIndex
      = tempChannelIndices files ∧
    (process_hwmon_device dirName files).2.length
      = (files.filter (fun f => (fanInputExtract f).isSome)).length ∧
    (process_hwmon_device dirName files).2.map FanDev.fanIndex
      = fanChannelIndices files ∧
    (fanChannelIndices files).Sorted (· ≤ ·) ∧
    (pwmChannelIndices files).Sorted (· ≤ ·) ∧
    ∀ (j : Nat) (hj : j < (process_hwmon_device dirName files).2.length),
      ((process_hwmon_device dirName files).2.get ⟨j, hj⟩).pwmIndex
          = (pwmChannelIndices files)[j]? ∧
      (∀ hp : j < (pwmChannelIndices files).length,
        ((process_hwmon_device dirName files).2.get ⟨j, hj⟩).pwmIndex
          = some ((pwmChannelIndices files).get ⟨j, hp⟩)) ∧
      ((pwmChannelIndices files).length ≤ j →
        ((process_hwmon_device dirName files).2.get ⟨j, hj⟩).pwmIndex = none) := by
  have hroute : process_hwmon_device dirName files = discover_mlxsw_sensors files := by
    unfold process_hwmon_device
    rw [if_pos h]
  rw [hroute, discover_mlxsw_eq]
  refine ⟨rfl, ?_, ?_, ?_, ?_, ?_, sortIdx_sorted _, sortIdx_sorted _, ?_⟩
  · simp only [List.length_map]
    exact tempChannelIndices_length files
  · intro th hth
    rcases List.mem_map.mp hth with ⟨i, _, rfl⟩
    rfl
  · rw [List.map_map]
    exact List.map_id _
  · simp only [buildFans_length]
    exact fanChannelIndices_length files
  · exact buildFans_map_fanIndex _ _ _
  · intro j hj
    have hjf : j < (fanChannelIndices files).length := by
      rw [← buildFans_length (fanChannelIndices files) 0 (pwmChannelIndices files)]
      exact hj
    have hget := buildFans_get (fanChannelIndices files) 0 j
      (pwmChannelIndices files) hjf hj
    rw [hget]
    refine ⟨by simp, ?_, ?_⟩
    · intro hp
      simp [List.getElem?_eq_getElem hp]
    · intro hp
      simp [List.getElem?_eq_none hp]

/-- Example directory from the spec (§8): name "mlxsw", entries
`temp1_input`, `temp2_input`, `fan1_input`, `fan2_input`, `pwm1`. -/
def testMlxswFiles : List (List Char) :=
  [mkChannelFile ChannelKind.temperature 1,
   mkChannelFile ChannelKind.temperature 2,
   mkChannelFile ChannelKind.fanSpeed 1,
   mkChannelFile ChannelKind.fanSpeed 2,
   mkChannelFile ChannelKind.pwm 1]

/-- Witness for C1 at the spec's worked example. -/
theorem c1_mlxsw_classification_witness :
    process_hwmon_device mlxswPat testMlxswFiles
      = discover_mlxsw_sensors testMlxswFiles :=
  (c1_mlxsw_classification mlxswPat testMlxswFiles (by decide)).1

/-! ## Fan status tracking and the shared fault counter (fan.rs)

`BAD_FAN_COUNT` is a process-wide `AtomicU32`; it is modelled as a `Nat`
threaded explicitly through the setters that touch it, with `u32`
wrap-around arithmetic (`fetch_add` / `fetch_sub` wrap at `2^32`). -/

/-- `2^32`, the `u32` modulus. -/
def U32 : Nat := 4294967296

/-- `AtomicU32::fetch_add(1)` result. -/
def incWrap (c : Nat) : Nat := (c + 1) % U32

/-- `AtomicU32::fetch_sub(1)` result (wrapping on underflow). -/
def decWrap (c : Nat) : Nat := (c + (U32 - 1)) % U32

/-- The `FanStatus` tracker (fan.rs 64–70). -/
structure FanStatus : Type where
  presence : Bool
  under_speed : Bool
  over_speed : Bool
  fault_status : Bool
deriving DecidableEq, Repr

/-- `FanStatus::new` (fan.rs 72–80). -/
def FanStatus.new : FanStatus :=
  { presence := true, under_speed := false, over_speed := false, fault_status := true }

/-- `FanStatus::set_presence` (fan.rs 82–94), counter threaded: on a
change, increment the counter if the new value is unhealthy (`false`),
decrement it if the old value was unhealthy. Returns
(changed, new tracker, new counter). -/
def FanStatus.set_presence (s : FanStatus) (b : Bool) (cnt : Nat) :
    Bool × FanStatus × Nat :=
  if s.presence ≠ b then
    (true, { s with presence := b },
      if b = false then incWrap cnt
      else if s.presence = false then decWrap cnt
      else cnt)
  else (false, s, cnt)

/-- `FanStatus::set_under_speed` (fan.rs 96–103): no counter access. -/
def FanStatus.set_under_speed (s : FanStatus) (b : Bool) : Bool × FanStatus :=
  if s.under_speed ≠ b then (true, { s with under_speed := b })
  else (false, s)

/-- `FanStatus::set_over_speed` (fan.rs 105–112): no counter access. -/
def FanStatus.set_over_speed (s : FanStatus) (b : Bool) : Bool × FanStatus :=
  if s.over_speed ≠ b then (true, { s with over_speed := b })
  else (false, s)

/-- `FanStatus::set_fault_status` (fan.rs 114–126), counter threaded. -/
def FanStatus.set_fault_status (s : FanStatus) (b : Bool) (cnt : Nat) :
    Bool × FanStatus × Nat :=
  if s.fault_status ≠ b then
    (true, { s with fault_status := b },
      if b = false then incWrap cnt
      else if s.fault_status = false then decWrap cnt
      else cnt)
  else (false, s, cnt)

/-- `FanStatus::is_ok` (fan.rs 128–130). -/
def FanStatus.is_ok (s : FanStatus) : Bool :=
  s.presence && !s.under_speed && !s.over_speed && s.fault_status

/-- One setter call addressed to one tracker of a collection. -/
inductive FanOp : Type
  | setPresence (i : Nat) (b : Bool)
  | setUnderSpeed (i : Nat) (b : Bool)
  | setOverSpeed (i : Nat) (b : Bool)
  | setFaultStatus (i : Nat) (b : Bool)

/-- Apply one setter call to a collection of trackers sharing the
counter. -/
def applyFanOp (st : List FanStatus × Nat) (op : FanOp) : List FanStatus × Nat :=
  match op with
  | FanOp.setPresence i b =>
    match st.1[i]? with
    | some t => ((st.1.set i (t.set_presence b st.2).2.1), (t.set_presence b st.2).2.2)
    | none => st
  | FanOp.setUnderSpeed i b =>
    match st.1[i]? with
    | some t => ((st.1.set i (t.set_under_speed b).2), st.2)
    | none => st
  | FanOp.setOverSpeed i b =>
    match st.1[i]? with
    | some t => ((st.1.set i (t.set_over_speed b).2), st.2)
    | none => st
  | FanOp.setFaultStatus i b =>
    match st.1[i]? with
    | some t => ((st.1.set i (t.set_fault_status b st.2).2.1), (t.set_fault_status b st.2).2.2)
    | none => st

/-- Run a sequence of setter calls. -/
def runFanOps (st : List FanStatus × Nat) (ops : List FanOp) : List FanStatus × Nat :=
  ops.foldl applyFanOp st

/-- `n` freshly constructed trackers and the zero-initialised counter
(fan.rs line 7: `AtomicU32::new(0)`). -/
def initTrackers (n : Nat) : List FanStatus × Nat :=
  (List.replicate n FanStatus.new, 0)

/-- Number of currently-unhealthy counter-relevant flags of one tracker
(absent, or fault-status false). -/
def badFlags (t : FanStatus) : Nat :=
  (if t.presence then 0 else 1) + (if t.fault_status then 0 else 1)

/-- Total number of unhealthy counter-relevant flags over a collection. -/
def sumBad (l : List FanStatus) : Nat := (l.map badFlags).sum

lemma sumBad_cons (t : FanStatus) (l : List FanStatus) :
    sumBad (t :: l) = badFlags t + sumBad l := by
  simp [sumBad]

lemma badFlags_le_two (t : FanStatus) : badFlags t ≤ 2 := by
  unfold badFlags
  split <;> split <;> omega

lemma sumBad_le (l : List FanStatus) : sumBad l ≤ 2 * l.length := by
  induction l with
  | nil => simp [sumBad]
  | cons t rest ih =>
    rw [sumBad_cons]
    have := badFlags_le_two t
    simp only [List.length_cons]
    omega

lemma badFlags_le_sumBad (l : List FanStatus) :
    ∀ (i : Nat) (t : FanStatus), l[i]? = some t → badFlags t ≤ sumBad l := by
  induction l with
  | nil => intro i t h; simp at h
  | cons a rest ih =>
    intro i t h
    cases i with
    | zero =>
      simp at h
      rw [sumBad_cons, ← h]
      omega
    | succ i2 =>
      simp at h
      have := ih i2 t h
      rw [sumBad_cons]
      omega

lemma sumBad_set (l : List FanStatus) :
    ∀ (i : Nat) (t t2 : FanStatus), l[i]? = some t →
      sumBad (l.set i t2) + badFlags t = sumBad l + badFlags t2 := by
  induction l with
  | nil => intro i t t2 h; simp at h
  | cons a rest ih =>
    intro i t t2 h
    cases i with
    | zero =>
      simp at h
      rw [List.set_cons_zero, sumBad_cons, sumBad_cons, ← h]
      omega
    | succ i2 =>
      simp at h
      rw [List.set_cons_succ, sumBad_cons, sumBad_cons]
      have := ih i2 t t2 h
      omega

lemma incWrap_eq (c : Nat) (h : c + 1 < U32) : incWrap c = c + 1 :=
  Nat.mod_eq_of_lt h

lemma decWrap_eq (c : Nat) (h1 : 1 ≤ c) (h2 : c < U32) : decWrap c = c - 1 := by
  unfold decWrap U32 at *
  rw [show c + (4294967296 - 1) = (c - 1) + 4294967296 by omega, Nat.add_mod_right]
  exact Nat.mod_eq_of_lt (by omega)

lemma one_le_badFlags_presence (t : FanStatus) (h : t.presence = false) :
    1 ≤ badFlags t := by
  unfold badFlags
  rw [h]
  simp

lemma one_le_badFlags_fault (t : FanStatus) (h : t.fault_status = false) :
    1 ≤ badFlags t := by
  unfold badFlags
  rw [h]
  split <;> simp

lemma set_presence_counter (t : FanStatus) (b : Bool) (c : Nat)
    (hb : badFlags t ≤ c) (hc : c + 1 < U32) :
    (t.set_presence b c).2.2 =
      if t.presence = true ∧ b = false then c + 1
      else if t.presence = false ∧ b = true then c - 1
      else c := by
  have hcu : c < U32 := by omega
  unfold FanStatus.set_presence
  cases hp : t.presence with
  | false =>
    cases b with
    | false => simp [hp]
    | true =>
      have h1 : 1 ≤ c := le_trans (one_le_badFlags_presence t hp) hb
      simp [hp, decWrap_eq c h1 hcu]
  | true =>
    cases b with
    | false => simp [hp, incWrap_eq c hc]
    | true => simp [hp]

lemma set_fault_counter (t : FanStatus) (b : Bool) (c : Nat)
    (hb : badFlags t ≤ c) (hc : c + 1 < U32) :
    (t.set_fault_status b c).2.2 =
      if t.fault_status = true ∧ b = false then c + 1
      else if t.fault_status = false ∧ b = true then c - 1
      else c := by
  have hcu : c < U32 := by omega
  unfold FanStatus.set_fault_status
  cases hp : t.fault_status with
  | false =>
    cases b with
    | false => simp [hp]
    | true =>
      have h1 : 1 ≤ c := le_trans (one_le_badFlags_fault t hp) hb
      simp [hp, decWrap_eq c h1 hcu]
  | true =>
    cases b with
    | false => simp [hp, incWrap_eq c hc]
    | true => simp [hp]

lemma set_presence_tracker (t : FanStatus) (b : Bool) (c : Nat) :
    (t.set_presence b c).2.1 =
      if t.presence = b then t else { t with presence := b } := by
  unfold FanStatus.set_presence
  by_cases h : t.presence = b <;> simp [h]

lemma set_fault_tracker (t : FanStatus) (b : Bool) (c : Nat) :
    (t.set_fault_status b c).2.1 =
      if t.fault_status = b then t else { t with fault_status := b } := by
  unfold FanStatus.set_fault_status
  by_cases h : t.fault_status = b <;> simp [h]

/-- The fundamental counter invariant: the tracker list keeps its
length, and the shared counter equals the total number of unhealthy
presence/fault flags. -/
def trackerInv (n : Nat) (st : List FanStatus × Nat) : Prop :=
  st.1.length = n ∧ st.2 = sumBad st.1

lemma badFlags_speed_invariant (t : FanStatus) (b : Bool) :
    badFlags (t.set_under_speed b).2 = badFlags t ∧
    badFlags (t.set_over_speed b).2 = badFlags t := by
  unfold FanStatus.set_under_speed FanStatus.set_over_speed badFlags
  constructor <;> split <;> rfl


lemma badFlags_presence_to_false (t : FanStatus) (hp : t.presence = true) :
    badFlags { t with presence := false } = badFlags t + 1 := by
  unfold badFlags
  rw [hp]
  simp
  omega

lemma badFlags_presence_to_true (t : FanStatus) (hp : t.presence = false) :
    badFlags { t with presence := true } + 1 = badFlags t := by
  unfold badFlags
  rw [hp]
  simp
  omega

lemma badFlags_fault_to_false (t : FanStatus) (hp : t.fault_status = true) :
    badFlags { t with fault_status := false } = badFlags t + 1 := by
  unfold badFlags
  rw [hp]
  simp

lemma badFlags_fault_to_true (t : FanStatus) (hp : t.fault_status = false) :
    badFlags { t with fault_status := true } + 1 = badFlags t := by
  unfold badFlags
  rw [hp]
  simp

lemma applyFanOp_inv (n : Nat) (h2n : 2 * n < U32) (st : List FanStatus × Nat)
    (op : FanOp) (h : trackerInv n st) : trackerInv n (applyFanOp st op) := by
  unfold trackerInv at h ⊢
  obtain ⟨hlen, hcnt⟩ := h
  have hsum_le : sumBad st.1 ≤ 2 * n := by
    have := sumBad_le st.1
    rw [hlen] at this
    exact this
  have hc1 : st.2 + 1 < U32 := by
    unfold U32 at h2n ⊢
    omega
  cases op with
  | setPresence i b =>
    cases hti : st.1[i]? with
    | none => simp only [applyFanOp, hti]; exact ⟨hlen, hcnt⟩
    | some t =>
      have hble : badFlags t ≤ st.2 := hcnt ▸ badFlags_le_sumBad st.1 i t hti
      refine ⟨by simp [applyFanOp, hti, hlen], ?_⟩
      simp only [applyFanOp, hti]
      rw [set_presence_counter t b st.2 hble hc1, set_presence_tracker]
      by_cases hpb : t.presence = b
      · rw [if_pos hpb]
        have hset := sumBad_set st.1 i t t hti
        have hcond1 : ¬ (t.presence = true ∧ b = false) := by
          rintro ⟨h1, h2⟩
          rw [hpb, h2] at h1
          cases h1
        have hcond2 : ¬ (t.presence = false ∧ b = true) := by
          rintro ⟨h1, h2⟩
          rw [hpb, h2] at h1
          cases h1
        rw [if_neg hcond1, if_neg hcond2, hcnt]
        omega
      · rw [if_neg hpb]
        cases b with
        | false =>
          have hp : t.presence = true := by
            cases hq : t.presence
            · exact absurd hq hpb
            · rfl
          have hset := sumBad_set st.1 i t { t with presence := false } hti
          have hbf := badFlags_presence_to_false t hp
          rw [if_pos ⟨hp, rfl⟩, hcnt]
          omega
        | true =>
          have hp : t.presence = false := by
            cases hq : t.presence
            · rfl
            · exact absurd hq hpb
          have hset := sumBad_set st.1 i t { t with presence := true } hti
          have hbf := badFlags_presence_to_true t hp
          have h1b : 1 ≤ badFlags t := one_le_badFlags_presence t hp
          have hcond1 : ¬ (t.presence = true ∧ (true : Bool) = false) := by
            rintro ⟨h1, h2⟩
            cases h2
          rw [if_neg hcond1, if_pos ⟨hp, rfl⟩, hcnt]
          omega
  | setUnderSpeed i b =>
    cases hti : st.1[i]? with
    | none => simp only [applyFanOp, hti]; exact ⟨hlen, hcnt⟩
    | some t =>
      refine ⟨by simp [applyFanOp, hti, hlen], ?_⟩
      simp only [applyFanOp, hti]
      have hset := sumBad_set st.1 i t (t.set_under_speed b).2 hti
      have hbf := (badFlags_speed_invariant t b).1
      rw [hcnt]
      omega
  | setOverSpeed i b =>
    cases hti : st.1[i]? with
    | none => simp only [applyFanOp, hti]; exact ⟨hlen, hcnt⟩
    | some t =>
      refine ⟨by simp [applyFanOp, hti, hlen], ?_⟩
      simp only [applyFanOp, hti]
      have hset := sumBad_set st.1 i t (t.set_over_speed b).2 hti
      have hbf := (badFlags_speed_invariant t b).2
      rw [hcnt]
      omega
  | setFaultStatus i b =>
    cases hti : st.1[i]? with
    | none => simp only [applyFanOp, hti]; exact ⟨hlen, hcnt⟩
    | some t =>
      have hble : badFlags t ≤ st.2 := hcnt ▸ badFlags_le_sumBad st.1 i t hti
      refine ⟨by simp [applyFanOp, hti, hlen], ?_⟩
      simp only [applyFanOp, hti]
      rw [set_fault_counter t b st.2 hble hc1, set_fault_tracker]
      by_cases hpb : t.fault_status = b
      · rw [if_pos hpb]
        have hset := sumBad_set st.1 i t t hti
        have hcond1 : ¬ (t.fault_status = true ∧ b = false) := by
          rintro ⟨h1, h2⟩
          rw [hpb, h2] at h1
          cases h1
        have hcond2 : ¬ (t.fault_status = false ∧ b = true) := by
          rintro ⟨h1, h2⟩
          rw [hpb, h2] at h1
          cases h1
        rw [if_neg hcond1, if_neg hcond2, hcnt]
        omega
      · rw [if_neg hpb]
        cases b with
        | false =>
          have hp : t.fault_status = true := by
            cases hq : t.fault_status
            · exact absurd hq hpb
            · rfl
          have hset := sumBad_set st.1 i t { t with fault_status := false } hti
          have hbf := badFlags_fault_to_false t hp
          rw [if_pos ⟨hp, rfl⟩, hcnt]
          omega
        | true =>
          have hp : t.fault_status = false := by
            cases hq : t.fault_status
            · rfl
            · exact absurd hq hpb
          have hset := sumBad_set st.1 i t { t with fault_status := true } hti
          have hbf := badFlags_fault_to_true t hp
          have h1b : 1 ≤ badFlags t := one_le_badFlags_fault t hp
          have hcond1 : ¬ (t.fault_status = true ∧ (true : Bool) = false) := by
            rintro ⟨h1, h2⟩
            cases h2
          rw [if_neg hcond1, if_pos ⟨hp, rfl⟩, hcnt]
          omega

lemma runFanOps_inv (n : Nat) (h2n : 2 * n < U32) (ops : List FanOp) :
    ∀ st : List FanStatus × Nat, trackerInv n st → trackerInv n (runFanOps st ops) := by
  induction ops with
  | nil => intro st h; exact h
  | cons op rest ih =>
    intro st h
    exact ih _ (applyFanOp_inv n h2n st op h)

lemma initTrackers_inv (n : Nat) : trackerInv n (initTrackers n) := by
  unfold trackerInv initTrackers
  constructor
  · simp
  · induction n with
    | zero => rfl
    | succ m ih =>
      simp only [List.replicate_succ, sumBad_cons]
      rw [← ih]
      rfl

/-- The tracker collection and shared counter after running `ops` from
`n` freshly constructed trackers and a zero counter. -/
def c2State (n : Nat) (ops : List FanOp) : List FanStatus × Nat :=
  runFanOps (initTrackers n) ops

/-- C2: starting from a zero counter and fresh trackers, after any
sequence of setter calls the shared fault counter equals the number of
currently-unhealthy presence/fault flags (hence is never negative and
never underflows); a further `set_under_speed`/`set_over_speed` never
mutates it; a further `set_presence`/`set_fault_status` adds exactly one
on a healthy→unhealthy transition, subtracts exactly one on an
unhealthy→healthy transition (from a strictly positive counter), and
leaves it unchanged otherwise. -/
theorem c2_fault_counter (n : Nat) (ops : List FanOp) (h2n : 2 * n < U32) :
    (c2State n ops).2 = sumBad (c2State n ops).1 ∧
    (∀ (i : Nat) (b : Bool),
      (applyFanOp (c2State n ops) (FanOp.setUnderSpeed i b)).2 = (c2State n ops).2) ∧
    (∀ (i : Nat) (b : Bool),
      (applyFanOp (c2State n ops) (FanOp.setOverSpeed i b)).2 = (c2State n ops).2) ∧
    (∀ (i : Nat) (b : Bool) (t : FanStatus), (c2State n ops).1[i]? = some t →
      ((applyFanOp (c2State n ops) (FanOp.setPresence i b)).2 =
        if t.presence = true ∧ b = false then (c2State n ops).2 + 1
        else if t.presence = false ∧ b = true then (c2State n ops).2 - 1
        else (c2State n ops).2) ∧
      (t.presence = false → b = true → 0 < (c2State n ops).2)) ∧
    (∀ (i : Nat) (b : Bool) (t : FanStatus), (c2State n ops).1[i]? = some t →
      ((applyFanOp (c2State n ops) (FanOp.setFaultStatus i b)).2 =
        if t.fault_status = true ∧ b = false then (c2State n ops).2 + 1
        else if t.fault_status = false ∧ b = true then (c2State n ops).2 - 1
        else (c2State n ops).2) ∧
      (t.fault_status = false → b = true → 0 < (c2State n ops).2)) := by
  have hinv : trackerInv n (c2State n ops) :=
    runFanOps_inv n h2n ops (initTrackers n) (initTrackers_inv n)
  obtain ⟨hlen, hcnt⟩ := hinv
  have hsum_le : sumBad (c2State n ops).1 ≤ 2 * n := by
    have := sumBad_le (c2State n ops).1
    rw [hlen] at this
    exact this
  have hc1 : (c2State n ops).2 + 1 < U32 := by
    unfold U32 at h2n ⊢
    omega
  refine ⟨hcnt, ?_, ?_, ?_, ?_⟩
  · intro i b
    cases hti : (c2State n ops).1[i]? <;> simp [applyFanOp, hti]
  · intro i b
    cases hti : (c2State n ops).1[i]? <;> simp [applyFanOp, hti]
  · intro i b t hti
    have hble : badFlags t ≤ (c2State n ops).2 :=
      hcnt ▸ badFlags_le_sumBad (c2State n ops).1 i t hti
    constructor
    · simp only [applyFanOp, hti]
      exact set_presence_counter t b (c2State n ops).2 hble hc1
    · intro hpf _
      have := one_le_badFlags_presence t hpf
      omega
  · intro i b t hti
    have hble : badFlags t ≤ (c2State n ops).2 :=
      hcnt ▸ badFlags_le_sumBad (c2State n ops).1 i t hti
    constructor
    · simp only [applyFanOp, hti]
      exact set_fault_counter t b (c2State n ops).2 hble hc1
    · intro hpf _
      have := one_le_badFlags_fault t hpf
      omega

/-- Witness for C2 with two trackers and one presence fault. -/
theorem c2_fault_counter_witness :
    (c2State 2 [FanOp.setPresence 0 false]).2
      = sumBad (c2State 2 [FanOp.setPresence 0 false]).1 :=
  (c2_fault_counter 2 [FanOp.setPresence 0 false] (by norm_num [U32])).1

/-! ## Temperature status tracking (thermal.rs)

`f32` readings are modelled as exact rationals; the sentinel comparison
`(x - NOT_AVAILABLE).abs() < 0.1` is exact at the points the claims
quantify over. -/

/-- The reserved "not available" sentinel (thermal.rs `NOT_AVAILABLE`). -/
def NOT_AVAILABLE : ℚ := -999

/-- `TemperatureStatus` (thermal.rs 27–32). -/
structure TemperatureStatus : Type where
  temperature : Option ℚ
  over_temperature : Bool
  under_temperature : Bool
deriving DecidableEq

/-- `TemperatureStatus::new` (thermal.rs 34–41). -/
def TemperatureStatus.new : TemperatureStatus :=
  { temperature := none, over_temperature := false, under_temperature := false }

/-- `TemperatureStatus::set_over_temperature` (thermal.rs 63–74):
sentinel suppression, then flag update with edge detection. Returns
(changed, new status). -/
def TemperatureStatus.set_over_temperature (s : TemperatureStatus)
    (temperature threshold : ℚ) : Bool × TemperatureStatus :=
  if |temperature - NOT_AVAILABLE| < 0.1 ∨ |threshold - NOT_AVAILABLE| < 0.1 then
    (false, s)
  else
    (s.over_temperature != decide (temperature > threshold),
     { s with over_temperature := decide (temperature > threshold) })

/-- `TemperatureStatus::set_under_temperature` (thermal.rs 76–87). -/
def TemperatureStatus.set_under_temperature (s : TemperatureStatus)
    (temperature threshold : ℚ) : Bool × TemperatureStatus :=
  if |temperature - NOT_AVAILABLE| < 0.1 ∨ |threshold - NOT_AVAILABLE| < 0.1 then
    (false, s)
  else
    (s.under_temperature != decide (temperature < threshold),
     { s with under_temperature := decide (temperature < threshold) })

/-- C3: when the reading or the threshold equals the reserved sentinel,
both threshold setters leave the status untouched and signal no
change. -/
theorem c3_sentinel_suppression (s : TemperatureStatus) (temperature threshold : ℚ)
    (h : temperature = NOT_AVAILABLE ∨ threshold = NOT_AVAILABLE) :
    s.set_over_temperature temperature threshold = (false, s) ∧
    s.set_under_temperature temperature threshold = (false, s) := by
  have hcond : |temperature - NOT_AVAILABLE| < 0.1 ∨ |threshold - NOT_AVAILABLE| < 0.1 := by
    rcases h with h | h
    · left
      rw [h, sub_self, abs_zero]
      norm_num
    · right
      rw [h, sub_self, abs_zero]
      norm_num
  unfold TemperatureStatus.set_over_temperature TemperatureStatus.set_under_temperature
  rw [if_pos hcond, if_pos hcond]
  exact ⟨rfl, rfl⟩

/-- Witness for C3: a sentinel reading against a live threshold. -/
theorem c3_sentinel_suppression_witness :
    TemperatureStatus.new.set_over_temperature NOT_AVAILABLE 50
        = (false, TemperatureStatus.new) ∧
    TemperatureStatus.new.set_under_temperature NOT_AVAILABLE 50
        = (false, TemperatureStatus.new) :=
  c3_sentinel_suppression TemperatureStatus.new NOT_AVAILABLE 50 (Or.inl rfl)

/-- C4: every flag setter reports a change exactly when the stored flag
value actually changes (for the plain boolean setters, exactly when the
argument differs from the stored value), and threshold evaluation is
idempotent: a second identical (reading, threshold) call reports no
change. -/
theorem c4_changed_iff_ne (t : FanStatus) (b : Bool) (cnt : Nat)
    (s : TemperatureStatus) (temperature threshold : ℚ) :
    (t.set_presence b cnt).1 = decide (t.presence ≠ b) ∧
    (t.set_under_speed b).1 = decide (t.under_speed ≠ b) ∧
    (t.set_over_speed b).1 = decide (t.over_speed ≠ b) ∧
    (t.set_fault_status b cnt).1 = decide (t.fault_status ≠ b) ∧
    (s.set_over_temperature temperature threshold).1
      = decide (s.over_temperature
          ≠ (s.set_over_temperature temperature threshold).2.over_temperature) ∧
    (s.set_under_temperature temperature threshold).1
      = decide (s.under_temperature
          ≠ (s.set_under_temperature temperature threshold).2.under_temperature) ∧
    ((s.set_over_temperature temperature threshold).2.set_over_temperature
        temperature threshold).1 = false ∧
    ((s.set_under_temperature temperature threshold).2.set_under_temperature
        temperature threshold).1 = false := by
  refine ⟨?_, ?_, ?_, ?_, ?_, ?_, ?_, ?_⟩
  · unfold FanStatus.set_presence
    by_cases h : t.presence = b <;> simp [h]
  · unfold FanStatus.set_under_speed
    by_cases h : t.under_speed = b <;> simp [h]
  · unfold FanStatus.set_over_speed
    by_cases h : t.over_speed = b <;> simp [h]
  · unfold FanStatus.set_fault_status
    by_cases h : t.fault_status = b <;> simp [h]
  · unfold TemperatureStatus.set_over_temperature
    by_cases hs : |temperature - NOT_AVAILABLE| < 0.1 ∨ |threshold - NOT_AVAILABLE| < 0.1
    · simp [hs]
    · rw [if_neg hs]
      cases hov : s.over_temperature <;>
        cases hd : decide (temperature > threshold) <;> simp [hov, hd]
  · unfold TemperatureStatus.set_under_temperature
    by_cases hs : |temperature - NOT_AVAILABLE| < 0.1 ∨ |threshold - NOT_AVAILABLE| < 0.1
    · simp [hs]
    · rw [if_neg hs]
      cases hov : s.under_temperature <;>
        cases hd : decide (temperature < threshold) <;> simp [hov, hd]
  · unfold TemperatureStatus.set_over_temperature
    by_cases hs : |temperature - NOT_AVAILABLE| < 0.1 ∨ |threshold - NOT_AVAILABLE| < 0.1
    · simp [hs]
    · rw [if_neg hs]
      simp
      rw [if_neg hs]
  · unfold TemperatureStatus.set_under_temperature
    by_cases hs : |temperature - NOT_AVAILABLE| < 0.1 ∨ |threshold - NOT_AVAILABLE| < 0.1
    · simp [hs]
    · rw [if_neg hs]
      simp
      rw [if_neg hs]

/-! ## MlnxThermal reads and the running min/max (thermal.rs) -/

/-- Thermal-side sysfs: filename → parsed `i32` millidegree content
(`none` = read or parse error). -/
def ThermalEnv : Type := List Char → Option Int

/-- `MlnxThermal::read_sysfs_temp` (thermal.rs 122–128): parsed
millidegrees divided by 1000. -/
def read_sysfs_temp (hw : ThermalEnv) (file : List Char) : Option ℚ :=
  (hw file).map (fun v => (v : ℚ) / 1000)

/-- `format!("temp{}_lowest", i)` -/
def tempLowestFile (i : Nat) : List Char :=
  tempPat ++ (natDigits i ++ ['_', 'l', 'o', 'w', 'e', 's', 't'])

/-- `format!("temp{}_highest", i)` -/
def tempHighestFile (i : Nat) : List Char :=
  tempPat ++ (natDigits i ++ ['_', 'h', 'i', 'g', 'h', 'e', 's', 't'])

/-- `MlnxThermal` state (thermal.rs 96–102): running min/max seeded at
+1000 / −1000 by `MlnxThermal::new`. -/
structure MlnxThermal : Type where
  name : List Char
  tempIndex : Nat
  min_temp : ℚ
  max_temp : ℚ
deriving DecidableEq

/-- `MlnxThermal::new` (thermal.rs 105–113). -/
def MlnxThermal.new (name : List Char) (tempIndex : Nat) : MlnxThermal :=
  { name := name, tempIndex := tempIndex, min_temp := 1000, max_temp := -1000 }

/-- `MlnxThermal::update_min_max` (thermal.rs 130–137). This method is
defined in the source but never invoked by any read path. -/
def MlnxThermal.update_min_max (t : MlnxThermal) (temp : ℚ) : MlnxThermal :=
  { t with
    min_temp := if temp < t.min_temp then temp else t.min_temp,
    max_temp := if temp > t.max_temp then temp else t.max_temp }

/-- `MlnxThermal::get_temperature` (thermal.rs 149–154): reads
`temp<N>_input` and returns it. The method takes `&self`: the thermal
state after the call (returned explicitly here) is the unchanged
receiver — no running min/max update happens. -/
def MlnxThermal.get_temperature (t : MlnxThermal) (hw : ThermalEnv) :
    Option ℚ × MlnxThermal :=
  (read_sysfs_temp hw (mkChannelFile ChannelKind.temperature t.tempIndex), t)

/-- `MlnxThermal::get_minimum_recorded` (thermal.rs 184–190):
`temp<N>_lowest` if readable, else the internal `min_temp`. -/
def MlnxThermal.get_minimum_recorded (t : MlnxThermal) (hw : ThermalEnv) : ℚ :=
  match read_sysfs_temp hw (tempLowestFile t.tempIndex) with
  | some v => v
  | none => t.min_temp

/-- `MlnxThermal::get_maximum_recorded` (thermal.rs 192–198). -/
def MlnxThermal.get_maximum_recorded (t : MlnxThermal) (hw : ThermalEnv) : ℚ :=
  match read_sysfs_temp hw (tempHighestFile t.tempIndex) with
  | some v => v
  | none => t.max_temp

/-- Hardware for the C5 failing input: `temp1_input` reads 25000
millidegrees (25 °C); the extrema attributes `temp1_lowest` /
`temp1_highest` are absent. -/
def c5Env : ThermalEnv :=
  fun f => if f = mkChannelFile ChannelKind.temperature 1 then some 25000 else none

/-- C5 failing input: with no hardware extrema attributes, a successful
`get_temperature` read of 25 °C leaves the thermal state unchanged
(the source never calls `update_min_max` and `get_temperature` takes
`&self`), so `get_minimum_recorded` / `get_maximum_recorded` still
return the +1000 / −1000 seeds instead of the observed 25 °C — even
though the dead `update_min_max` helper would have recorded it. -/
theorem c5_min_max_never_updated :
    (MlnxThermal.get_temperature (MlnxThermal.new (thermalLabel 1) 1) c5Env).1
        = some 25 ∧
    (MlnxThermal.get_temperature (MlnxThermal.new (thermalLabel 1) 1) c5Env).2
        = MlnxThermal.new (thermalLabel 1) 1 ∧
    MlnxThermal.get_minimum_recorded
        (MlnxThermal.new (thermalLabel 1) 1) c5Env = 1000 ∧
    MlnxThermal.get_maximum_recorded
        (MlnxThermal.new (thermalLabel 1) 1) c5Env = -1000 ∧
    MlnxThermal.update_min_max (MlnxThermal.new (thermalLabel 1) 1) 25
      ≠ MlnxThermal.new (thermalLabel 1) 1 := by
  refine ⟨?_, rfl, ?_, ?_, ?_⟩
  · show (read_sysfs_temp c5Env (mkChannelFile ChannelKind.temperature 1)) = some 25
    unfold read_sysfs_temp c5Env
    rw [if_pos rfl]
    norm_num
  · unfold MlnxThermal.get_minimum_recorded read_sysfs_temp c5Env
    have hne : tempLowestFile (MlnxThermal.new (thermalLabel 1) 1).tempIndex
        ≠ mkChannelFile ChannelKind.temperature 1 := by decide
    rw [if_neg hne]
    rfl
  · unfold MlnxThermal.get_maximum_recorded read_sysfs_temp c5Env
    have hne : tempHighestFile (MlnxThermal.new (thermalLabel 1) 1).tempIndex
        ≠ mkChannelFile ChannelKind.temperature 1 := by decide
    rw [if_neg hne]
    rfl
  · intro heq
    have := congrArg MlnxThermal.min_temp heq
    unfold MlnxThermal.update_min_max MlnxThermal.new at this
    norm_num at this

/-! ## MlnxFan reads (fan.rs) -/

/-- Fan-side sysfs: filename → parsed `u32` content (`none` = read or
parse error). -/
def FanEnv : Type := List Char → Option Nat

/-- `format!("fan{}_fault", i)` -/
def fanFaultFile (i : Nat) : List Char :=
  fanPat ++ (natDigits i ++ ['_', 'f', 'a', 'u', 'l', 't'])

/-- `MlnxFan::rpm_to_percentage` (fan.rs 235–238):
`((rpm / 25000.0) * 100.0).min(100.0) as u32`, as exact arithmetic with
truncation. -/
def rpm_to_percentage (rpm : Nat) : Nat := min (rpm * 100 / 25000) 100

/-- `MlnxFan::pwm_to_percentage` (fan.rs 240–242):
`((pwm / 255.0) * 100.0) as u32`, as exact arithmetic with
truncation. -/
def pwm_to_percentage (pwm : Nat) : Nat := pwm * 100 / 255

/-- `MlnxFan::percentage_to_pwm` (fan.rs 244–246):
`((percentage.min(100) / 100.0) * 255.0) as u32`. -/
def percentage_to_pwm (percentage : Nat) : Nat := min percentage 100 * 255 / 100

/-- The pwm conversion inlined in the free function `set_fan_speed`
(fan.rs 341–350): `((speed_percentage.min(100) / 100.0) * 255.0) as
u32`, the decimal value written to `pwm<N>`. -/
def set_fan_speed_value (speed_percentage : Nat) : Nat :=
  min speed_percentage 100 * 255 / 100

/-- `u32::saturating_add` (`Nat` is already saturating for `sub`). -/
def satAdd32 (a b : Nat) : Nat := min (a + b) (U32 - 1)

/-- `MlnxFan::get_presence` (fan.rs 254–261): `fan<N>_fault` = 0 means
present; nonzero means absent; unreadable counts as present. -/
def MlnxFan.get_presence (f : FanDev) (hw : FanEnv) : Bool :=
  match hw (fanFaultFile f.fanIndex) with
  | some 0 => true
  | some _ => false
  | none => true

/-- `MlnxFan::get_status` (fan.rs 263–270): textually the same read and
mapping as `get_presence`. -/
def MlnxFan.get_status (f : FanDev) (hw : FanEnv) : Bool :=
  match hw (fanFaultFile f.fanIndex) with
  | some 0 => true
  | some _ => false
  | none => true

/-- `MlnxFan::get_speed` (fan.rs 272–276). -/
def MlnxFan.get_speed (f : FanDev) (hw : FanEnv) : Option Nat :=
  (hw (mkChannelFile ChannelKind.fanSpeed f.fanIndex)).map rpm_to_percentage

/-- `MlnxFan::get_target_speed` (fan.rs 278–286): paired pwm byte as a
percentage of 255 when a pairing exists, else the current speed. -/
def MlnxFan.get_target_speed (f : FanDev) (hw : FanEnv) : Option Nat :=
  match f.pwmIndex with
  | some p => (hw (mkChannelFile ChannelKind.pwm p)).map pwm_to_percentage
  | none => MlnxFan.get_speed f hw

/-- `MlnxFan::is_under_speed` (fan.rs 288–294):
`speed < target.saturating_sub(20)` (`Nat` subtraction saturates). -/
def MlnxFan.is_under_speed (f : FanDev) (hw : FanEnv) : Option Bool :=
  match MlnxFan.get_speed f hw, MlnxFan.get_target_speed f hw with
  | some s, some t => some (decide (s < t - 20))
  | _, _ => none

/-- `MlnxFan::is_over_speed` (fan.rs 296–302):
`speed > target.saturating_add(20)`. -/
def MlnxFan.is_over_speed (f : FanDev) (hw : FanEnv) : Option Bool :=
  match MlnxFan.get_speed f hw, MlnxFan.get_target_speed f hw with
  | some s, some t => some (decide (satAdd32 t 20 < s))
  | _, _ => none

/-- C6: with current speed `s` and target `t`, under-speed holds iff
`s < t - 20` with saturating subtraction (hence never when `t ≤ 20`),
and over-speed holds iff `s > t + 20` with saturating addition (plain
`t + 20` whenever it fits in `u32`). -/
theorem c6_speed_tolerance (f : FanDev) (hw : FanEnv) (s t : Nat)
    (hs : MlnxFan.get_speed f hw = some s)
    (ht : MlnxFan.get_target_speed f hw = some t) :
    MlnxFan.is_under_speed f hw = some (decide (s < t - 20)) ∧
    (t ≤ 20 → MlnxFan.is_under_speed f hw = some false) ∧
    MlnxFan.is_over_speed f hw = some (decide (satAdd32 t 20 < s)) ∧
    (t + 20 < U32 → MlnxFan.is_over_speed f hw = some (decide (t + 20 < s))) := by
  refine ⟨?_, ?_, ?_, ?_⟩
  · unfold MlnxFan.is_under_speed
    rw [hs, ht]
  · intro h20
    unfold MlnxFan.is_under_speed
    rw [hs, ht]
    show some (decide (s < t - 20)) = some false
    have ht0 : t - 20 = 0 := by omega
    rw [ht0]
    simp
  · unfold MlnxFan.is_over_speed
    rw [hs, ht]
  · intro hfit
    unfold MlnxFan.is_over_speed
    rw [hs, ht]
    show some (decide (satAdd32 t 20 < s)) = some (decide (t + 20 < s))
    have hsat : satAdd32 t 20 = t + 20 := by
      simp only [satAdd32, U32] at hfit ⊢
      omega
    rw [hsat]

/-- Example env for C6/C7: `fan1_input` = 12500 RPM, `pwm1` = 128
(the spec §8 example: 50% speed, 50% target). -/
def c6Env : FanEnv :=
  fun fl => if fl = mkChannelFile ChannelKind.fanSpeed 1 then some 12500
    else if fl = mkChannelFile ChannelKind.pwm 1 then some 128
    else none

/-- The fan paired as by `discover_mlxsw_sensors` on the example
directory: `fan1` paired with `pwm1`. -/
def c6Fan : FanDev := { name := fanLabel 1, fanIndex := 1, pwmIndex := some 1 }

/-- Witness for C6 at the spec example (50% speed vs 50% target: in
band). -/
theorem c6_speed_tolerance_witness :
    MlnxFan.is_under_speed c6Fan c6Env = some false ∧
    MlnxFan.is_over_speed c6Fan c6Env = some false := by
  have h := c6_speed_tolerance c6Fan c6Env 50 50 (by decide) (by decide)
  refine ⟨?_, ?_⟩
  · rw [h.1]
    decide
  · rw [h.2.2.1]
    decide

/-- C7: a pwm-paired fan reports its target as the pwm byte scaled to a
percentage of 255; an unpaired fan reports target speed identically
equal to current speed; and every fan built by the fan-only discovery
strategy is unpaired, hence always reports target = current. -/
theorem c7_target_speed (f : FanDev) (hw : FanEnv) (dirName : List Char)
    (files : List (List Char)) :
    (f.pwmIndex = none → MlnxFan.get_target_speed f hw = MlnxFan.get_speed f hw) ∧
    (∀ p, f.pwmIndex = some p →
      MlnxFan.get_target_speed f hw
        = (hw (mkChannelFile ChannelKind.pwm p)).map pwm_to_percentage) ∧
    (∀ fan ∈ discover_fans dirName files, fan.pwmIndex = none) ∧
    (∀ fan ∈ discover_fans dirName files,
      MlnxFan.get_target_speed fan hw = MlnxFan.get_speed fan hw) := by
  have hnone : ∀ fan ∈ discover_fans dirName files, fan.pwmIndex = none := by
    intro fan hfan
    rcases List.mem_map.mp hfan with ⟨i, _, rfl⟩
    rfl
  refine ⟨?_, ?_, hnone, ?_⟩
  · intro h
    unfold MlnxFan.get_target_speed
    rw [h]
  · intro p hp
    unfold MlnxFan.get_target_speed
    rw [hp]
  · intro fan hfan
    unfold MlnxFan.get_target_speed
    rw [hnone fan hfan]

/-- Witness for C7: a fan from the fan-only strategy reports target =
current speed. -/
theorem c7_target_speed_witness :
    MlnxFan.get_target_speed { name := fanLabel 2, fanIndex := 2, pwmIndex := none } c6Env
      = MlnxFan.get_speed { name := fanLabel 2, fanIndex := 2, pwmIndex := none } c6Env :=
  (c7_target_speed { name := fanLabel 2, fanIndex := 2, pwmIndex := none } c6Env [] []).1 rfl

/-- C8: `get_presence` and `get_status` agree on every fan and every
state of the fault attribute: 0 ⇒ true, nonzero ⇒ false, unreadable ⇒
true. -/
theorem c8_presence_status (f : FanDev) (hw : FanEnv) :
    MlnxFan.get_presence f hw = MlnxFan.get_status f hw ∧
    (hw (fanFaultFile f.fanIndex) = some 0 → MlnxFan.get_presence f hw = true) ∧
    (∀ v, hw (fanFaultFile f.fanIndex) = some v → v ≠ 0 →
      MlnxFan.get_presence f hw = false) ∧
    (hw (fanFaultFile f.fanIndex) = none → MlnxFan.get_presence f hw = true) := by
  refine ⟨rfl, ?_, ?_, ?_⟩
  · intro h
    unfold MlnxFan.get_presence
    rw [h]
  · intro v hv hv0
    unfold MlnxFan.get_presence
    rw [hv]
    cases v with
    | zero => exact absurd rfl hv0
    | succ v2 => rfl
  · intro h
    unfold MlnxFan.get_presence
    rw [h]

/-- Witness for C8: a healthy fault attribute reads 0 on both signals. -/
theorem c8_presence_status_witness :
    MlnxFan.get_presence c6Fan (fun fl => if fl = fanFaultFile 1 then some 0 else none)
      = true :=
  (c8_presence_status c6Fan
    (fun fl => if fl = fanFaultFile 1 then some 0 else none)).2.1 (by decide)

/-- C10: for every requested percentage, the value written to `pwm<N>`
by `set_fan_speed` is clamped-then-scaled and always lies in 0–255, and
coincides with `MlnxFan::percentage_to_pwm`. -/
theorem c10_pwm_write_in_range (speed_percentage : Nat) :
    set_fan_speed_value speed_percentage ≤ 255 ∧
    set_fan_speed_value speed_percentage = percentage_to_pwm speed_percentage := by
  refine ⟨?_, rfl⟩
  unfold set_fan_speed_value
  have h1 : min speed_percentage 100 ≤ 100 := Nat.min_le_right _ _
  have h2 : min speed_percentage 100 * 255 ≤ 25500 := by omega
  calc min speed_percentage 100 * 255 / 100 ≤ 25500 / 100 := Nat.div_le_div_right h2
    _ = 255 := by norm_num
